import Mathlib

/-!
Verification development for the Monte Carlo simulation repository
(`src/app.py`, `src/backup/02/app.py`, `src/sensitivita.py`).

The numeric model uses `ℚ` for Python/numpy numbers.  Where numpy float
semantics matter to a claim (silent `0/0 → nan`, `x/0 → ±inf`,
`nan > 0 = False`) values are lifted to `NpFloat`, which carries the
special values explicitly.
-/

deriving instance DecidableEq for Except

/-- A numpy floating-point scalar: a finite rational, `nan`, or `±inf`.
Sign-of-zero distinctions of IEEE arithmetic are not represented. -/
inductive NpFloat
  | num (q : ℚ)
  | nan
  | inf
  | ninf
deriving DecidableEq, Repr

/-- `np.round`: round half to even (banker's rounding).  `Int.fdiv` on
numerator and denominator is the floor of the rational. -/
def npRound (q : ℚ) : ℚ :=
  let f : ℤ := Int.fdiv q.num q.den
  let frac := q - f
  if frac < 1/2 then f
  else if 1/2 < frac then f + 1
  else if f % 2 = 0 then f else f + 1

/-- IEEE-style addition on `NpFloat`. -/
def npAdd : NpFloat → NpFloat → NpFloat
  | .num a, .num b => .num (a + b)
  | .nan, _ => .nan
  | _, .nan => .nan
  | .inf, .ninf => .nan
  | .ninf, .inf => .nan
  | .inf, _ => .inf
  | _, .inf => .inf
  | .ninf, _ => .ninf
  | _, .ninf => .ninf

/-- IEEE-style negation on `NpFloat`. -/
def npNeg : NpFloat → NpFloat
  | .num a => .num (-a)
  | .nan => .nan
  | .inf => .ninf
  | .ninf => .inf

/-- IEEE-style subtraction on `NpFloat`. -/
def npSub (a b : NpFloat) : NpFloat := npAdd a (npNeg b)

/-- IEEE-style multiplication on `NpFloat`. -/
def npMul : NpFloat → NpFloat → NpFloat
  | .num a, .num b => .num (a * b)
  | .nan, _ => .nan
  | _, .nan => .nan
  | .inf, .num b => if b = 0 then .nan else if 0 < b then .inf else .ninf
  | .num a, .inf => if a = 0 then .nan else if 0 < a then .inf else .ninf
  | .ninf, .num b => if b = 0 then .nan else if 0 < b then .ninf else .inf
  | .num a, .ninf => if a = 0 then .nan else if 0 < a then .ninf else .inf
  | .inf, .inf => .inf
  | .inf, .ninf => .ninf
  | .ninf, .inf => .ninf
  | .ninf, .ninf => .inf

/-- IEEE-style true division on `NpFloat`: `0/0 = nan`, `x/0 = ±inf`
(numpy emits a runtime warning but no exception). -/
def npDiv : NpFloat → NpFloat → NpFloat
  | .num a, .num b =>
      if b = 0 then (if a = 0 then .nan else if 0 < a then .inf else .ninf)
      else .num (a / b)
  | .nan, _ => .nan
  | _, .nan => .nan
  | .num _, .inf => .num 0
  | .num _, .ninf => .num 0
  | .inf, .num b => if 0 ≤ b then .inf else .ninf
  | .ninf, .num b => if 0 ≤ b then .ninf else .inf
  | .inf, .inf => .nan
  | .inf, .ninf => .nan
  | .ninf, .inf => .nan
  | .ninf, .ninf => .nan

/-- Python `x > 0` on a float: `nan > 0` is `False`. -/
def npGtZero : NpFloat → Bool
  | .num q => decide (0 < q)
  | .inf => true
  | _ => false

/-- Python `sum(...)`: left fold with integer start `0`. -/
def npSum (l : List NpFloat) : NpFloat := l.foldl npAdd (.num 0)

/-- `np.mean` over a 1-d array; the empty array yields `nan`
(numpy warns and returns `nan`). -/
def npMean (xs : List ℚ) : NpFloat :=
  if xs.isEmpty then .nan else .num (xs.sum / xs.length)

/-- `np.var` (population variance, ddof = 0) over a 1-d array; the empty
array yields `nan`. -/
def npVar (xs : List ℚ) : NpFloat :=
  if xs.isEmpty then .nan
  else
    let m := xs.sum / xs.length
    .num ((xs.map (fun x => (x - m) ^ 2)).sum / xs.length)

/-!  ## The formula evaluator

`src/app.py:322`, `src/backup/02/app.py` and `src/sensitivita.py` all
evaluate the user formula with `eval(formula, {"__builtins__": {}}, samples)`.
The embedding models the fragment of Python expression evaluation reachable
from formula text over numeric/array values: literals, identifier lookup in
the locals mapping (builtins are empty, so an unknown identifier raises
`NameError`), the arithmetic operators with numpy broadcasting, calls
(none of the representable values is callable, so a call on an evaluated
callee raises `TypeError`), and attribute access (every Python object has
`__class__`; other attribute names raise `AttributeError` in this fragment).
-/

/-- Errors raised by parsing or evaluating a formula, and by dict access. -/
inductive PyErr
  | syntaxError
  | nameError (id : String)
  | typeError
  | valueError
  | attributeError
  | keyError (k : String)
deriving DecidableEq, Repr

/-- Values arising while evaluating a formula over sample arrays. -/
inductive PyVal
  | num (q : ℚ)
  | arr (xs : List ℚ)
  | str (s : String)
  | typeObj (name : String)
deriving DecidableEq, Repr

/-- Binary operators of the Python expression grammar used by formulas. -/
inductive PyBinOp
  | add
  | sub
  | mul
  | div
  | pow
deriving DecidableEq, Repr

/-- Python expressions reachable from formula text (the fragment relevant
to the claims). -/
inductive PyExpr
  | num (q : ℚ)
  | str (s : String)
  | name (id : String)
  | binop (op : PyBinOp) (a b : PyExpr)
  | neg (a : PyExpr)
  | call (f : PyExpr) (args : List PyExpr)
  | attr (a : PyExpr) (field : String)

/-- The `__class__` of a value.  `ℚ` conflates Python `int` and `float`;
integral rationals report `int`. -/
def classOf : PyVal → String
  | .num q => if q.den = 1 then "int" else "float"
  | .arr _ => "ndarray"
  | .str _ => "str"
  | .typeObj _ => "type"

/-- Scalar semantics of one binary operator over `ℚ`.  Caveats of the
rational model: `a / 0` is `0` here (CPython raises `ZeroDivisionError`
for scalars, numpy produces `inf`/`nan`; no claim exercises it), and a
fractional exponent is rejected (the real result would be irrational). -/
def qop : PyBinOp → ℚ → ℚ → Except PyErr ℚ
  | .add, a, b => .ok (a + b)
  | .sub, a, b => .ok (a - b)
  | .mul, a, b => .ok (a * b)
  | .div, a, b => .ok (a / b)
  | .pow, a, b => if b.den = 1 then .ok (a ^ b.num) else .error .typeError

/-- Map a fallible scalar operation over an array. -/
def mapME (f : ℚ → Except PyErr ℚ) : List ℚ → Except PyErr (List ℚ)
  | [] => .ok []
  | x :: xs =>
    match f x with
    | .error e => .error e
    | .ok y =>
      match mapME f xs with
      | .error e => .error e
      | .ok ys => .ok (y :: ys)

/-- Zip two arrays with a fallible scalar operation (callers guard equal
length first, mirroring numpy broadcasting). -/
def zipME (f : ℚ → ℚ → Except PyErr ℚ) : List ℚ → List ℚ → Except PyErr (List ℚ)
  | [], _ => .ok []
  | _, [] => .ok []
  | x :: xs, y :: ys =>
    match f x y with
    | .error e => .error e
    | .ok z =>
      match zipME f xs ys with
      | .error e => .error e
      | .ok zs => .ok (z :: zs)

/-- A binary operation on values with numpy broadcasting: scalar-scalar,
elementwise on equal-length arrays (mismatched lengths raise, as numpy
refuses to broadcast them), and scalar-array in either order. -/
def evalBin (op : PyBinOp) : PyVal → PyVal → Except PyErr PyVal
  | .num a, .num b => (qop op a b).map .num
  | .arr xs, .arr ys =>
      if xs.length = ys.length then (zipME (qop op) xs ys).map .arr
      else .error .valueError
  | .arr xs, .num b => (mapME (fun a => qop op a b) xs).map .arr
  | .num a, .arr ys => (mapME (fun b => qop op a b) ys).map .arr
  | _, _ => .error .typeError

/-- Unary minus on values. -/
def evalNeg : PyVal → Except PyErr PyVal
  | .num a => .ok (.num (-a))
  | .arr xs => .ok (.arr (xs.map (fun x => -x)))
  | _ => .error .typeError

mutual

/-- Evaluate an expression against the locals mapping (the samples dict);
globals hold only an empty `__builtins__`, so name lookup that misses the
locals raises `NameError`. -/
def pyEval (env : List (String × List ℚ)) : PyExpr → Except PyErr PyVal
  | .num q => .ok (.num q)
  | .str s => .ok (.str s)
  | .name id =>
    match env.lookup id with
    | some xs => .ok (.arr xs)
    | none => .error (.nameError id)
  | .binop op a b =>
    match pyEval env a with
    | .error e => .error e
    | .ok va =>
      match pyEval env b with
      | .error e => .error e
      | .ok vb => evalBin op va vb
  | .neg a =>
    match pyEval env a with
    | .error e => .error e
    | .ok va => evalNeg va
  | .call f args =>
    match pyEval env f with
    | .error e => .error e
    | .ok _ =>
      match pyEvalList env args with
      | .error e => .error e
      | .ok _ => .error .typeError
  | .attr a field =>
    match pyEval env a with
    | .error e => .error e
    | .ok va =>
      if field = "__class__" then .ok (.typeObj (classOf va))
      else .error .attributeError

/-- Evaluate call arguments left to right. -/
def pyEvalList (env : List (String × List ℚ)) : List PyExpr → Except PyErr (List PyVal)
  | [] => .ok []
  | e :: es =>
    match pyEval env e with
    | .error err => .error err
    | .ok v =>
      match pyEvalList env es with
      | .error err => .error err
      | .ok vs => .ok (v :: vs)

end

/-!  ## Parsing formula strings

`eval` first compiles the formula string in expression mode.  The
tokenizer/parser below model the Python expression grammar restricted to
the tokens that can occur in this fragment: numbers, identifiers,
single-quoted strings, `+ - * / **`, parentheses, `.`, `,` and `;`.
A `;` token (statements) cannot appear inside an expression, so a formula
such as `1; 2` fails exactly as CPython `eval` does, with a syntax error.
-/

/-- Tokens of the formula grammar. -/
inductive Tok
  | num (q : ℚ)
  | name (s : String)
  | str (s : String)
  | plus
  | minus
  | star
  | slash
  | dstar
  | lparen
  | rparen
  | dot
  | comma
  | semi
deriving DecidableEq, Repr

/-- The single-quote character. -/
def squote : Char := Char.ofNat 39

/-- Is this character part of an identifier? -/
def isIdentChar (c : Char) : Bool := c.isAlphanum || c = '_'

/-- Digits to a natural number. -/
def natOfDigits (ds : List Char) : ℕ :=
  ds.foldl (fun n c => n * 10 + (c.toNat - 48)) 0

/-- Tokenize, with fuel bounding the recursion (each step consumes at
least one character). -/
def tokenizeAux : ℕ → List Char → Except PyErr (List Tok)
  | _, [] => .ok []
  | 0, _ => .error .syntaxError
  | fuel + 1, c :: rest =>
    if c = ' ' then tokenizeAux fuel rest
    else if c.isDigit then
      let ds := (c :: rest).takeWhile Char.isDigit
      let rest2 := (c :: rest).dropWhile Char.isDigit
      let n : ℚ := natOfDigits ds
      match rest2 with
      | '.' :: r3 =>
        let fs := r3.takeWhile Char.isDigit
        let r4 := r3.dropWhile Char.isDigit
        let q : ℚ := n + (natOfDigits fs : ℚ) / ((10 : ℚ) ^ fs.length)
        match tokenizeAux fuel r4 with
        | .error e => .error e
        | .ok ts => .ok (.num q :: ts)
      | _ =>
        match tokenizeAux fuel rest2 with
        | .error e => .error e
        | .ok ts => .ok (.num n :: ts)
    else if c.isAlpha || c = '_' then
      let ds := (c :: rest).takeWhile isIdentChar
      let rest2 := (c :: rest).dropWhile isIdentChar
      match tokenizeAux fuel rest2 with
      | .error e => .error e
      | .ok ts => .ok (.name (String.mk ds) :: ts)
    else if c = squote then
      let body := rest.takeWhile (fun d => d ≠ squote)
      match rest.dropWhile (fun d => d ≠ squote) with
      | _ :: r2 =>
        match tokenizeAux fuel r2 with
        | .error e => .error e
        | .ok ts => .ok (.str (String.mk body) :: ts)
      | [] => .error .syntaxError
    else if c = '*' then
      match rest with
      | '*' :: r2 =>
        match tokenizeAux fuel r2 with
        | .error e => .error e
        | .ok ts => .ok (.dstar :: ts)
      | _ =>
        match tokenizeAux fuel rest with
        | .error e => .error e
        | .ok ts => .ok (.star :: ts)
    else
      let tok : Except PyErr Tok :=
        if c = '+' then .ok .plus
        else if c = '-' then .ok .minus
        else if c = '/' then .ok .slash
        else if c = '(' then .ok .lparen
        else if c = ')' then .ok .rparen
        else if c = '.' then .ok .dot
        else if c = ',' then .ok .comma
        else if c = ';' then .ok .semi
        else .error .syntaxError
      match tok with
      | .error e => .error e
      | .ok t =>
        match tokenizeAux fuel rest with
        | .error e => .error e
        | .ok ts => .ok (t :: ts)

/-- Tokenize a formula string. -/
def tokenize (s : String) : Except PyErr (List Tok) :=
  tokenizeAux (s.length + 1) s.data

mutual

/-- `expr := mulExpr ((+|-) mulExpr)*` — entry point of the grammar. -/
def parseAdd : ℕ → List Tok → Except PyErr (PyExpr × List Tok)
  | 0, _ => .error .syntaxError
  | fuel + 1, ts =>
    match parseMul fuel ts with
    | .error e => .error e
    | .ok (e, ts1) => parseAddRest fuel e ts1

/-- Left-associated additive tail. -/
def parseAddRest : ℕ → PyExpr → List Tok → Except PyErr (PyExpr × List Tok)
  | 0, _, _ => .error .syntaxError
  | fuel + 1, acc, ts =>
    match ts with
    | .plus :: ts1 =>
      match parseMul fuel ts1 with
      | .error e => .error e
      | .ok (e, ts2) => parseAddRest fuel (.binop .add acc e) ts2
    | .minus :: ts1 =>
      match parseMul fuel ts1 with
      | .error e => .error e
      | .ok (e, ts2) => parseAddRest fuel (.binop .sub acc e) ts2
    | _ => .ok (acc, ts)

/-- `mulExpr := unary ((*|/) unary)*`. -/
def parseMul : ℕ → List Tok → Except PyErr (PyExpr × List Tok)
  | 0, _ => .error .syntaxError
  | fuel + 1, ts =>
    match parseUnary fuel ts with
    | .error e => .error e
    | .ok (e, ts1) => parseMulRest fuel e ts1

/-- Left-associated multiplicative tail. -/
def parseMulRest : ℕ → PyExpr → List Tok → Except PyErr (PyExpr × List Tok)
  | 0, _, _ => .error .syntaxError
  | fuel + 1, acc, ts =>
    match ts with
    | .star :: ts1 =>
      match parseUnary fuel ts1 with
      | .error e => .error e
      | .ok (e, ts2) => parseMulRest fuel (.binop .mul acc e) ts2
    | .slash :: ts1 =>
      match parseUnary fuel ts1 with
      | .error e => .error e
      | .ok (e, ts2) => parseMulRest fuel (.binop .div acc e) ts2
    | _ => .ok (acc, ts)

/-- `unary := - unary | power` (unary minus binds looser than `**`,
as in Python). -/
def parseUnary : ℕ → List Tok → Except PyErr (PyExpr × List Tok)
  | 0, _ => .error .syntaxError
  | fuel + 1, ts =>
    match ts with
    | .minus :: ts1 =>
      match parseUnary fuel ts1 with
      | .error e => .error e
      | .ok (e, ts2) => .ok (.neg e, ts2)
    | _ => parsePower fuel ts

/-- `power := primary [** unary]` — right associative. -/
def parsePower : ℕ → List Tok → Except PyErr (PyExpr × List Tok)
  | 0, _ => .error .syntaxError
  | fuel + 1, ts =>
    match parsePrimary fuel ts with
    | .error e => .error e
    | .ok (b, ts1) =>
      match ts1 with
      | .dstar :: ts2 =>
        match parseUnary fuel ts2 with
        | .error e => .error e
        | .ok (e, ts3) => .ok (.binop .pow b e, ts3)
      | _ => .ok (b, ts1)

/-- `primary := atom trailer*` where a trailer is `.name` or a call
argument list. -/
def parsePrimary : ℕ → List Tok → Except PyErr (PyExpr × List Tok)
  | 0, _ => .error .syntaxError
  | fuel + 1, ts =>
    match parseAtom fuel ts with
    | .error e => .error e
    | .ok (a, ts1) => parseTrailers fuel a ts1

/-- Attribute-access and call trailers. -/
def parseTrailers : ℕ → PyExpr → List Tok → Except PyErr (PyExpr × List Tok)
  | 0, _, _ => .error .syntaxError
  | fuel + 1, acc, ts =>
    match ts with
    | .dot :: .name s :: ts2 => parseTrailers fuel (.attr acc s) ts2
    | .dot :: _ => .error .syntaxError
    | .lparen :: .rparen :: ts2 => parseTrailers fuel (.call acc []) ts2
    | .lparen :: ts2 =>
      match parseArgs fuel ts2 with
      | .error e => .error e
      | .ok (args, ts3) =>
        match ts3 with
        | .rparen :: ts4 => parseTrailers fuel (.call acc args) ts4
        | _ => .error .syntaxError
    | _ => .ok (acc, ts)

/-- Comma-separated call arguments. -/
def parseArgs : ℕ → List Tok → Except PyErr (List PyExpr × List Tok)
  | 0, _ => .error .syntaxError
  | fuel + 1, ts =>
    match parseAdd fuel ts with
    | .error e => .error e
    | .ok (e, ts1) =>
      match ts1 with
      | .comma :: ts2 =>
        match parseArgs fuel ts2 with
        | .error e => .error e
        | .ok (es, ts3) => .ok (e :: es, ts3)
      | _ => .ok ([e], ts1)

/-- `atom := number | identifier | string | ( expr )`. -/
def parseAtom : ℕ → List Tok → Except PyErr (PyExpr × List Tok)
  | 0, _ => .error .syntaxError
  | fuel + 1, ts =>
    match ts with
    | .num q :: r => .ok (.num q, r)
    | .name s :: r => .ok (.name s, r)
    | .str s :: r => .ok (.str s, r)
    | .lparen :: r =>
      match parseAdd fuel r with
      | .error e => .error e
      | .ok (e, r1) =>
        match r1 with
        | .rparen :: r2 => .ok (e, r2)
        | _ => .error .syntaxError
    | _ => .error .syntaxError

end

/-- Parse a formula string to an expression; the whole token stream must
be consumed (leftover tokens such as `; 2` are a syntax error, as in
CPython expression mode). -/
def pyParse (s : String) : Except PyErr PyExpr :=
  match tokenize s with
  | .error e => .error e
  | .ok ts =>
    match parseAdd ((ts.length + 1) * 8) ts with
    | .error e => .error e
    | .ok (e, rest) => if rest = [] then .ok e else .error .syntaxError

/-- The formula evaluator of the source:
`eval(formula, {"__builtins__": {}}, samples)`
(`src/app.py:322`, `src/backup/02/app.py`, `src/sensitivita.py`). -/
def evaluate (formula : String) (samples : List (String × List ℚ)) :
    Except PyErr PyVal :=
  match pyParse formula with
  | .error e => .error e
  | .ok e => pyEval samples e

/-!  ## The distribution sampler

`generate_samples` in `src/app.py:64-75` (if/elif chain, no `Fixed`
branch) and in `src/backup/02/app.py:89-103` (dict dispatch with a
`lambda _: None` default and a `Fixed` branch).  The library draw
functions `np.random.triangular/normal/uniform` are modelled as an
explicit random source; each draw array is passed through `np.round`.
Parameters are the Python dict `params`; a missing key raises `KeyError`.
-/

/-- The numpy global random generator, as the three draw primitives the
sampler uses.  A field application models one call
`np.random.X(..., n)` returning the raw (unrounded) draws. -/
structure RandomSource where
  triangular : ℚ → ℚ → ℚ → ℕ → List ℚ
  normal : ℚ → ℚ → ℕ → List ℚ
  uniform : ℚ → ℚ → ℕ → List ℚ

/-- Outcome of `generate_samples`: a returned array, the Python value
`None` (the fall-through return), or a raised `KeyError`. -/
inductive SampleResult
  | arr (xs : List ℚ)
  | noneVal
  | keyError (k : String)
deriving DecidableEq, Repr

/-- `generate_samples` of `src/app.py:64-75`: `Triangular`, `Normal` and
`Uniform` draw and round; every other kind (including `"Fixed"`) falls
through to `return None`.  No parameter validation is performed. -/
def generate_samples (rng : RandomSource) (dist_type : String)
    (params : List (String × ℚ)) (n_samples : ℕ) : SampleResult :=
  if dist_type = "Triangular" then
    match params.lookup "lower", params.lookup "mode", params.lookup "upper" with
    | some l, some m, some u => .arr ((rng.triangular l m u n_samples).map npRound)
    | none, _, _ => .keyError "lower"
    | _, none, _ => .keyError "mode"
    | _, _, none => .keyError "upper"
  else if dist_type = "Normal" then
    match params.lookup "mean", params.lookup "std" with
    | some m, some s => .arr ((rng.normal m s n_samples).map npRound)
    | none, _ => .keyError "mean"
    | _, none => .keyError "std"
  else if dist_type = "Uniform" then
    match params.lookup "min", params.lookup "max" with
    | some lo, some hi => .arr ((rng.uniform lo hi n_samples).map npRound)
    | none, _ => .keyError "min"
    | _, none => .keyError "max"
  else .noneVal

/-- `generate_samples` of `src/backup/02/app.py:89-103`: the same three
rounded draws, plus `"Fixed" → np.full(n_samples, params["value"])`
(no rounding, no randomness); the dict-dispatch default returns `None`. -/
def generate_samples_02 (rng : RandomSource) (dist_type : String)
    (params : List (String × ℚ)) (n_samples : ℕ) : SampleResult :=
  if dist_type = "Triangular" then
    match params.lookup "lower", params.lookup "mode", params.lookup "upper" with
    | some l, some m, some u => .arr ((rng.triangular l m u n_samples).map npRound)
    | none, _, _ => .keyError "lower"
    | _, none, _ => .keyError "mode"
    | _, _, none => .keyError "upper"
  else if dist_type = "Normal" then
    match params.lookup "mean", params.lookup "std" with
    | some m, some s => .arr ((rng.normal m s n_samples).map npRound)
    | none, _ => .keyError "mean"
    | _, none => .keyError "std"
  else if dist_type = "Uniform" then
    match params.lookup "min", params.lookup "max" with
    | some lo, some hi => .arr ((rng.uniform lo hi n_samples).map npRound)
    | none, _ => .keyError "min"
    | _, none => .keyError "max"
  else if dist_type = "Fixed" then
    match params.lookup "value" with
    | some v => .arr (List.replicate n_samples v)
    | none => .keyError "value"
  else .noneVal

/-- A concrete random source for instantiating theorems: every draw
array is all zeros (of the requested size). -/
def zeroRng : RandomSource where
  triangular := fun _ _ _ n => List.replicate n 0
  normal := fun _ _ n => List.replicate n 0
  uniform := fun _ _ n => List.replicate n 0

/-!  ## The target probability

`src/app.py:333-338` and `calculate_statistics` in
`src/backup/02/app.py:241-258` compute
`prob = np.mean(result > target_value) * 100` when the radio button
reads `Maggiore` (greater), and `np.mean(result < target_value) * 100`
otherwise.  `Direction.maggiore` models the string comparison
`target_direction == "Maggiore dell obiettivo"` (with apostrophe)
selecting the first branch. -/
inductive Direction
  | maggiore
  | minore
deriving DecidableEq, Repr

/-- The probability branch of `calculate_statistics`: the mean of the
boolean comparison array, times 100. -/
def target_probability (result : List ℚ) (target_value : ℚ)
    (dir : Direction) : NpFloat :=
  match dir with
  | .maggiore => npMul (npMean (result.map (fun x => if target_value < x then (1 : ℚ) else 0))) (.num 100)
  | .minore => npMul (npMean (result.map (fun x => if x < target_value then (1 : ℚ) else 0))) (.num 100)

/-!  ## Sensitivity analysis (`src/sensitivita.py`)

`calculate_variable_impacts(samples, formula, variables)`:
for every variable, copy the samples dict, replace that variable by the
constant array of its mean (`np.full_like`), re-evaluate, and set
`impact = 1 - np.var(test_result) / np.var(base_result)`; finally
normalize only when the total impact is positive.  The dict state the
caller observes is threaded through the loop explicitly, so mutation
claims are statable: the loop writes only to the per-iteration copy. -/

/-- Python `d[k] = v` on a dict holding key `k` (key order preserved). -/
def dictSet (l : List (String × List ℚ)) (k : String) (v : List ℚ) :
    List (String × List ℚ) :=
  l.map (fun p => if p.1 = k then (k, v) else p)

/-- One loop iteration of `calculate_variable_impacts`
(`src/sensitivita.py:12-23`) written over the given dict:
`test_samples = samples.copy()`, mean-substitute `v`, re-evaluate, and
form `1 - np.var(test_result) / np.var(base_var)`.  The `fill` default
`0` is never used: `np.mean` is not `num` only on an empty array, and
`np.full_like` of an empty array is empty whatever the fill value. -/
def rawImpactEntry (formula : String) (bv : NpFloat)
    (samples : List (String × List ℚ)) (v : String) :
    Except PyErr (String × NpFloat) :=
  match samples.lookup v with
  | none => .error (.keyError v)
  | some xs =>
    let fill : ℚ := match npMean xs with | .num q => q | _ => 0
    match evaluate formula (dictSet samples v (List.replicate xs.length fill)) with
    | .error e => .error e
    | .ok test_result =>
      match npVarVal test_result with
      | .error e => .error e
      | .ok tv => .ok (v, npSub (.num 1) (npDiv tv bv))
where
  /-- `np.var` applied to an evaluation result: arrays use `npVar`, a
  scalar has variance `0.0`, non-numeric values raise `TypeError`. -/
  npVarVal : PyVal → Except PyErr NpFloat
  | .arr xs => .ok (npVar xs)
  | .num _ => .ok (.num 0)
  | _ => .error .typeError

/-- The `for var_name in variables.keys()` loop of
`calculate_variable_impacts`, threading the caller-visible samples dict
as explicit state.  Each iteration works on `samples.copy()`; the state
is returned so that the frame property (the caller dict is unchanged) is
a theorem, not a modelling assumption. -/
def impactsLoop (formula : String) (bv : NpFloat)
    (st : List (String × List ℚ)) :
    List String → Except PyErr (List (String × NpFloat) × List (String × List ℚ))
  | [] => .ok ([], st)
  | v :: rest =>
    match st.lookup v with
    | none => .error (.keyError v)
    | some xs =>
      let fill : ℚ := match npMean xs with | .num q => q | _ => 0
      let test_samples := dictSet st v (List.replicate xs.length fill)
      match evaluate formula test_samples with
      | .error e => .error e
      | .ok test_result =>
        match rawImpactEntry.npVarVal test_result with
        | .error e => .error e
        | .ok tv =>
          match impactsLoop formula bv st rest with
          | .error e => .error e
          | .ok (imps, stOut) =>
            .ok ((v, npSub (.num 1) (npDiv tv bv)) :: imps, stOut)

/-- The normalization step of `calculate_variable_impacts`
(`src/sensitivita.py:25-28`): `total_impact = sum(impacts.values())`;
only `if total_impact > 0` is each impact replaced by
`v / total_impact * 100`; otherwise the raw impacts are returned as-is. -/
def normalizeImpacts (impacts : List (String × NpFloat)) :
    List (String × NpFloat) :=
  let total := npSum (impacts.map Prod.snd)
  if npGtZero total then
    impacts.map (fun p => (p.1, npMul (npDiv p.2 total) (.num 100)))
  else impacts

/-- `calculate_variable_impacts` of `src/sensitivita.py:5-30`.  The
result pairs the returned impacts dict with the caller-visible samples
dict after the call.  `np.var(base_result)` is hoisted out of the loop
(it is recomputed identically each iteration in the source). -/
def calculate_variable_impacts (samples : List (String × List ℚ))
    (formula : String) (vars : List String) :
    Except PyErr (List (String × NpFloat) × List (String × List ℚ)) :=
  match evaluate formula samples with
  | .error e => .error e
  | .ok base_result =>
    match rawImpactEntry.npVarVal base_result with
    | .error e => .error e
    | .ok bv =>
      match impactsLoop formula bv samples vars with
      | .error e => .error e
      | .ok (impacts, st) => .ok (normalizeImpacts impacts, st)

/-- The what-if weighting of `render_sensitivity_analysis`
(`src/sensitivita.py:118-121`):
`weighted_samples = {v: samples[v] * weights[v] for v in variables}`.
`none` models the `KeyError` raised when a variable is missing from
`samples`. -/
def apply_weights (samples : List (String × List ℚ))
    (weights : String → ℚ) : List String → Option (List (String × List ℚ))
  | [] => some []
  | v :: vs =>
    match samples.lookup v with
    | none => none
    | some xs =>
      match apply_weights samples weights vs with
      | none => none
      | some l => some ((v, xs.map (fun x => x * weights v)) :: l)

/-!  ## Helper lemmas -/

/-- A successful assoc-list lookup comes from a member pair. -/
theorem lookup_mem {l : List (String × List ℚ)} {k : String} {xs : List ℚ}
    (h : l.lookup k = some xs) : (k, xs) ∈ l := by
  induction l with
  | nil => simp [List.lookup] at h
  | cons p t ih =>
    rw [List.lookup] at h
    by_cases hk : k = p.1
    · subst hk
      simp at h
      subst h
      exact List.mem_cons_self _ _
    · have : (k == p.1) = false := beq_false_of_ne hk
      rw [this] at h
      exact List.mem_cons_of_mem _ (ih h)

/-- `mapME` preserves the array length. -/
theorem mapME_len {f : ℚ → Except PyErr ℚ} :
    ∀ {xs ys : List ℚ}, mapME f xs = .ok ys → ys.length = xs.length := by
  intro xs
  induction xs with
  | nil => intro ys h; simp [mapME] at h; subst h; rfl
  | cons x t ih =>
    intro ys h
    rw [mapME] at h
    cases hx : f x with
    | error e => rw [hx] at h; simp at h
    | ok y =>
      rw [hx] at h
      cases ht : mapME f t with
      | error e => rw [ht] at h; simp at h
      | ok ts =>
        rw [ht] at h
        simp at h
        subst h
        simp [ih ht]

/-- `zipME` on equal-length arrays preserves the length. -/
theorem zipME_len {f : ℚ → ℚ → Except PyErr ℚ} :
    ∀ {xs ys zs : List ℚ}, zipME f xs ys = .ok zs →
      xs.length = ys.length → zs.length = xs.length := by
  intro xs
  induction xs with
  | nil => intro ys zs h _; simp [zipME] at h; subst h; rfl
  | cons x t ih =>
    intro ys zs h hlen
    cases ys with
    | nil => simp at hlen
    | cons y u =>
      rw [zipME] at h
      cases hx : f x y with
      | error e => rw [hx] at h; simp at h
      | ok z =>
        rw [hx] at h
        cases ht : zipME f t u with
        | error e => rw [ht] at h; simp at h
        | ok zt =>
          rw [ht] at h
          simp at h
          subst h
          simp at hlen
          simp [ih ht hlen]

/-- The length invariant carried through formula evaluation: every array
value has the common sample length `n`. -/
def ValLen (n : ℕ) : PyVal → Prop
  | .arr xs => xs.length = n
  | _ => True

/-- `evalBin` preserves the length invariant. -/
theorem evalBin_len {op : PyBinOp} {va vb v : PyVal} {n : ℕ}
    (hop : evalBin op va vb = .ok v)
    (ha : ValLen n va) (hb : ValLen n vb) : ValLen n v := by
  cases va with
  | num a =>
    cases vb with
    | num b =>
      rw [evalBin] at hop
      cases hq : qop op a b with
      | error e => rw [hq] at hop; simp [Except.map] at hop
      | ok y => rw [hq] at hop; simp [Except.map] at hop; subst hop; trivial
    | arr ys =>
      rw [evalBin] at hop
      cases hm : mapME (fun b => qop op a b) ys with
      | error e => rw [hm] at hop; simp [Except.map] at hop
      | ok zs =>
        rw [hm] at hop
        simp [Except.map] at hop
        subst hop
        show zs.length = n
        rw [mapME_len hm]
        exact hb
    | str s => simp [evalBin] at hop
    | typeObj s => simp [evalBin] at hop
  | arr xs =>
    cases vb with
    | num b =>
      rw [evalBin] at hop
      cases hm : mapME (fun a => qop op a b) xs with
      | error e => rw [hm] at hop; simp [Except.map] at hop
      | ok zs =>
        rw [hm] at hop
        simp [Except.map] at hop
        subst hop
        show zs.length = n
        rw [mapME_len hm]
        exact ha
    | arr ys =>
      rw [evalBin] at hop
      by_cases hl : xs.length = ys.length
      · rw [if_pos hl] at hop
        cases hz : zipME (qop op) xs ys with
        | error e => rw [hz] at hop; simp [Except.map] at hop
        | ok zs =>
          rw [hz] at hop
          simp [Except.map] at hop
          subst hop
          show zs.length = n
          rw [zipME_len hz hl]
          exact ha
      · rw [if_neg hl] at hop; simp at hop
    | str s => simp [evalBin] at hop
    | typeObj s => simp [evalBin] at hop
  | str s => cases vb <;> simp [evalBin] at hop
  | typeObj s => cases vb <;> simp [evalBin] at hop

/-- `evalNeg` preserves the length invariant. -/
theorem evalNeg_len {va v : PyVal} {n : ℕ}
    (hop : evalNeg va = .ok v) (ha : ValLen n va) : ValLen n v := by
  cases va with
  | num a => simp [evalNeg] at hop; subst hop; trivial
  | arr xs =>
    simp [evalNeg] at hop
    subst hop
    show (xs.map _).length = n
    rw [List.length_map]
    exact ha
  | str s => simp [evalNeg] at hop
  | typeObj s => simp [evalNeg] at hop

/-- Formula evaluation preserves the common sample length: every
successfully evaluated value is a scalar or an array of length `n`
when every sample array in the environment has length `n`. -/
theorem pyEval_len (env : List (String × List ℚ)) (n : ℕ)
    (he : ∀ p ∈ env, (Prod.snd p).length = n) :
    ∀ (e : PyExpr) (v : PyVal), pyEval env e = .ok v → ValLen n v
  | .num q, v, h => by
    simp only [pyEval] at h
    simp at h
    subst h
    trivial
  | .str s, v, h => by
    simp only [pyEval] at h
    simp at h
    subst h
    trivial
  | .name id, v, h => by
    simp only [pyEval] at h
    cases hl : env.lookup id with
    | none => rw [hl] at h; simp at h
    | some xs =>
      rw [hl] at h
      simp at h
      subst h
      exact he (id, xs) (lookup_mem hl)
  | .binop op a b, v, h => by
    simp only [pyEval] at h
    cases ha : pyEval env a with
    | error e => rw [ha] at h; simp at h
    | ok va =>
      rw [ha] at h
      cases hb : pyEval env b with
      | error e => rw [hb] at h; simp at h
      | ok vb =>
        rw [hb] at h
        exact evalBin_len h (pyEval_len env n he a va ha) (pyEval_len env n he b vb hb)
  | .neg a, v, h => by
    simp only [pyEval] at h
    cases ha : pyEval env a with
    | error e => rw [ha] at h; simp at h
    | ok va =>
      rw [ha] at h
      exact evalNeg_len h (pyEval_len env n he a va ha)
  | .call f args, v, h => by
    simp only [pyEval] at h
    cases hf : pyEval env f with
    | error e => rw [hf] at h; simp at h
    | ok vf =>
      rw [hf] at h
      cases hargs : pyEvalList env args with
      | error e => rw [hargs] at h; simp at h
      | ok vs => rw [hargs] at h; simp at h
  | .attr a field, v, h => by
    simp only [pyEval] at h
    cases ha : pyEval env a with
    | error e => rw [ha] at h; simp at h
    | ok va =>
      rw [ha] at h
      by_cases hf : field = "__class__"
      · subst hf
        simp at h
        subst h
        trivial
      · simp [hf] at h

/-- Folding `npAdd` over finite values is rational addition. -/
theorem npSum_foldl_num (qs : List ℚ) :
    ∀ a : ℚ, (qs.map NpFloat.num).foldl npAdd (.num a) = .num (a + qs.sum) := by
  induction qs with
  | nil => intro a; simp [npSum]
  | cons q t ih =>
    intro a
    simp only [List.map_cons, List.foldl_cons, List.sum_cons]
    rw [show npAdd (.num a) (.num q) = .num (a + q) from rfl, ih]
    ring_nf

/-- `sum` over a list of finite floats is the rational sum. -/
theorem npSum_num (qs : List ℚ) : npSum (qs.map NpFloat.num) = .num qs.sum := by
  rw [npSum, npSum_foldl_num]
  ring_nf

/-- The sum of a 0/1 indicator map is the count of hits. -/
theorem sum_indicator (p : ℚ → Prop) [DecidablePred p] (l : List ℚ) :
    (l.map (fun x => if p x then (1 : ℚ) else 0)).sum =
      (l.countP (fun x => decide (p x)) : ℚ) := by
  induction l with
  | nil => simp
  | cons x t ih =>
    by_cases hx : p x
    · simp [List.countP_cons, hx, ih]
      ring
    · simp [List.countP_cons, hx, ih]

/-- Rescaling distributes over a list sum. -/
theorem sum_map_div_mul (qs : List ℚ) (t c : ℚ) :
    (qs.map (fun q => q / t * c)).sum = qs.sum / t * c := by
  induction qs with
  | nil => simp
  | cons q u ih =>
    simp only [List.map_cons, List.sum_cons, ih]
    ring

/-- With no duplicate keys, looking up a member pair returns its value. -/
theorem lookup_self {samples : List (String × List ℚ)}
    (hnd : (samples.map Prod.fst).Nodup) :
    ∀ p ∈ samples, samples.lookup p.1 = some p.2 := by
  induction samples with
  | nil => intro p hp; simp at hp
  | cons q t ih =>
    intro p hp
    rw [List.map_cons, List.nodup_cons] at hnd
    rcases List.mem_cons.mp hp with h | h
    · subst h
      rw [List.lookup, beq_self_eq_true]
    · have hne : p.1 ≠ q.1 := by
        intro hcontra
        exact hnd.1 (hcontra ▸ List.mem_map_of_mem Prod.fst h)
      rw [List.lookup, beq_false_of_ne hne]
      exact ih hnd.2 p h

/-- Multiplying every entry of an array by weight `1` is the identity. -/
theorem map_mul_one_id (xs : List ℚ) : xs.map (fun x => x * 1) = xs := by
  simp

/-- `apply_weights` with all weights `1`, over keys whose lookups hit the
listed pairs, rebuilds exactly those pairs. -/
theorem apply_weights_one (samples : List (String × List ℚ)) :
    ∀ l : List (String × List ℚ),
      (∀ p ∈ l, samples.lookup p.1 = some p.2) →
      apply_weights samples (fun _ => 1) (l.map Prod.fst) = some l := by
  intro l
  induction l with
  | nil => intro _; rfl
  | cons p t ih =>
    intro hl
    have hp := hl p (List.mem_cons_self _ _)
    have ht := ih (fun q hq => hl q (List.mem_cons_of_mem _ hq))
    rw [List.map_cons, apply_weights, hp, ht]
    simp [map_mul_one_id]

/-- Sequence a fallible per-variable computation over a variable list
(the reference shape for the loop characterization). -/
def mapMEx (f : String → Except PyErr (String × NpFloat)) :
    List String → Except PyErr (List (String × NpFloat))
  | [] => .ok []
  | v :: vs =>
    match f v with
    | .error e => .error e
    | .ok p =>
      match mapMEx f vs with
      | .error e => .error e
      | .ok l => .ok (p :: l)

/-- `impactsLoop` equals the independent per-variable impacts over the
original dict, and returns the dict unchanged (the loop only writes to
the per-iteration copy). -/
theorem impactsLoop_eq (formula : String) (bv : NpFloat)
    (st : List (String × List ℚ)) :
    ∀ vars : List String,
      impactsLoop formula bv st vars =
        (mapMEx (rawImpactEntry formula bv st) vars).map (fun l => (l, st)) := by
  intro vars
  induction vars with
  | nil => rfl
  | cons v rest ih =>
    rw [impactsLoop, mapMEx, rawImpactEntry]
    cases hl : st.lookup v with
    | none => rfl
    | some xs =>
      simp only []
      cases hev : evaluate formula
          (dictSet st v (List.replicate xs.length
            (match npMean xs with | .num q => q | _ => 0))) with
      | error e => rfl
      | ok test_result =>
        simp only []
        cases hv : rawImpactEntry.npVarVal test_result with
        | error e => rfl
        | ok tv =>
          simp only [ih]
          cases hm : mapMEx (rawImpactEntry formula bv st) rest with
          | error e => rfl
          | ok imps => rfl

/-!  ## Claim theorems -/

/-- C1: the two spec examples do fail under
`eval(formula, {"__builtins__": {}}, samples)` — `__import__` is not in
the empty builtins (`NameError`), and `1; 2` is not an expression
(`SyntaxError`) — but the grammar is not restricted to arithmetic: the
attribute access `(1).__class__` evaluates successfully and yields the
`int` class object, so code paths outside the arithmetic grammar are
reachable from formula text. -/
theorem formula_eval_not_sandboxed :
    evaluate "__import__(\x27os\x27)" [] = .error (.nameError "__import__") ∧
    evaluate "1; 2" [] = .error .syntaxError ∧
    evaluate "(1).__class__" [] = .ok (.typeObj "int") :=
  ⟨by with_unfolding_all rfl, by with_unfolding_all rfl,
   by with_unfolding_all rfl⟩

/-- C3 counterexample: for the unsupported kind `"Lognormal"`,
`generate_samples` returns the Python `None` sentinel — not a typed
`UnknownDistributionKind` failure. -/
theorem unknown_kind_yields_none :
    generate_samples_02 zeroRng "Lognormal" [] 5 = SampleResult.noneVal := by
  decide

/-- C3 amended: for every kind outside {Triangular, Normal, Uniform,
Fixed}, `generate_samples` (backup/02 variant) returns the sentinel
`None` for every parameter record and every sample count; no error is
raised. -/
theorem generate_samples_unknown_kind (rng : RandomSource)
    (params : List (String × ℚ)) (n : ℕ) (kind : String)
    (h1 : kind ≠ "Triangular") (h2 : kind ≠ "Normal")
    (h3 : kind ≠ "Uniform") (h4 : kind ≠ "Fixed") :
    generate_samples_02 rng kind params n = SampleResult.noneVal := by
  rw [generate_samples_02, if_neg h1, if_neg h2, if_neg h3, if_neg h4]

/-- Witness for the amended C3 theorem at a concrete unknown kind. -/
theorem generate_samples_unknown_kind_w :
    generate_samples_02 zeroRng "Beta" [] 3 = SampleResult.noneVal :=
  generate_samples_unknown_kind zeroRng [] 3 "Beta"
    (by decide) (by decide) (by decide) (by decide)

/-- C5: sampling `Fixed` (backup/02 variant, `np.full(n, value)`)
returns exactly `n` copies of `value`, independent of the random source
(the statement holds for every `rng`, so no randomness is involved). -/
theorem fixed_sampling_constant (rng : RandomSource)
    (params : List (String × ℚ)) (value : ℚ) (n : ℕ)
    (h : params.lookup "value" = some value) :
    generate_samples_02 rng "Fixed" params n =
      SampleResult.arr (List.replicate n value) ∧
    (List.replicate n value).length = n ∧
    ∀ x ∈ List.replicate n value, x = value := by
  refine ⟨?_, List.length_replicate n value,
    fun x hx => List.eq_of_mem_replicate hx⟩
  rw [generate_samples_02, if_neg (by decide), if_neg (by decide),
    if_neg (by decide), if_pos rfl, h]

/-- Witness for C5 at `value = 7`, `n = 3`. -/
theorem fixed_sampling_constant_w :
    generate_samples_02 zeroRng "Fixed" [("value", 7)] 3 =
      SampleResult.arr (List.replicate 3 (7 : ℚ)) ∧
    (List.replicate 3 (7 : ℚ)).length = 3 ∧
    ∀ x ∈ List.replicate 3 (7 : ℚ), x = 7 :=
  fixed_sampling_constant zeroRng [("value", 7)] 7 3 (by decide)

/-- C8 counterexample: `Uniform` with `min = 5 > 1 = max` violates the
parameter invariant, yet `generate_samples` returns an array instead of
failing with `InvalidParameters` — no validation happens before (or
during) drawing. -/
theorem invalid_uniform_sampled :
    generate_samples zeroRng "Uniform" [("min", 5), ("max", 1)] 3 =
      SampleResult.arr [0, 0, 0] := by
  with_unfolding_all rfl

/-- C8 amended: `generate_samples` performs no parameter validation.
For every parameter record with `min > max`, the `Uniform` branch simply
forwards the parameters to the library draw and returns the rounded
draws; invalid-parameter failures, where they occur at all, would come
from inside the library (mid-draw), never from a pre-draw check. -/
theorem uniform_no_validation (rng : RandomSource)
    (params : List (String × ℚ)) (n : ℕ) (pmin pmax : ℚ)
    (hmin : params.lookup "min" = some pmin)
    (hmax : params.lookup "max" = some pmax)
    (_hbad : pmax < pmin) :
    generate_samples rng "Uniform" params n =
      SampleResult.arr ((rng.uniform pmin pmax n).map npRound) := by
  rw [generate_samples, if_neg (by decide), if_neg (by decide),
    if_pos rfl, hmin, hmax]

/-- Witness for the amended C8 theorem at `min = 5`, `max = 1`. -/
theorem uniform_no_validation_w :
    generate_samples zeroRng "Uniform" [("min", 5), ("max", 1)] 2 =
      SampleResult.arr ((zeroRng.uniform 5 1 2).map npRound) :=
  uniform_no_validation zeroRng [("min", 5), ("max", 1)] 2 5 1
    (by decide) (by decide) (by decide)

/-- C6: formula evaluation is element-wise over equal-length sample
arrays — concretely `A + B` over `{A: [1,2,3], B: [10,20,30]}` yields
exactly `[11, 22, 33]`, and in general every successful array result
has the common sample length. -/
theorem evaluate_elementwise :
    evaluate "A + B" [("A", [1, 2, 3]), ("B", [10, 20, 30])] =
      .ok (.arr [11, 22, 33]) ∧
    ∀ (formula : String) (samples : List (String × List ℚ)) (n : ℕ)
      (xs : List ℚ),
      (∀ p ∈ samples, (Prod.snd p).length = n) →
      evaluate formula samples = .ok (.arr xs) → xs.length = n := by
  constructor
  · with_unfolding_all rfl
  · intro formula samples n xs he hev
    rw [evaluate] at hev
    cases hp : pyParse formula with
    | error e => rw [hp] at hev; simp at hev
    | ok e =>
      rw [hp] at hev
      exact pyEval_len samples n he e (.arr xs) hev

/-- Witness for C6 at the concrete samples of the claim (`n = 3`). -/
theorem evaluate_elementwise_w :
    ([11, 22, 33] : List ℚ).length = 3 :=
  evaluate_elementwise.2 "A + B" [("A", [1, 2, 3]), ("B", [10, 20, 30])]
    3 [11, 22, 33] (by decide) (by with_unfolding_all rfl)

/-- Strict comparisons partition a list into below, equal and above the
target; the two strict counts never cover an element equal to the target. -/
theorem countP_partition (result : List ℚ) (t : ℚ) :
    result.countP (fun x => decide (t < x)) +
      result.countP (fun x => decide (x < t)) +
      result.countP (fun x => decide (x = t)) = result.length := by
  induction result with
  | nil => simp
  | cons x l ih =>
    simp only [List.countP_cons, List.length_cons]
    rcases lt_trichotomy t x with h | h | h
    · have h2 : ¬ x < t := not_lt.mpr h.le
      have h3 : ¬ x = t := ne_of_gt h
      simp [h, h2, h3]
      omega
    · have h1 : ¬ t < x := by rw [h]; exact lt_irrefl x
      have h2 : ¬ x < t := by rw [h]; exact lt_irrefl x
      simp [h1, h2, h.symm]
      omega
    · have h1 : ¬ t < x := not_lt.mpr h.le
      have h3 : ¬ x = t := ne_of_lt h
      simp [h, h1, h3]
      omega

/-- `np.mean` of a 0/1 indicator is the hit count over the length. -/
theorem npMean_indicator (p : ℚ → Prop) [DecidablePred p] (l : List ℚ)
    (hne : l ≠ []) :
    npMean (l.map (fun x => if p x then (1 : ℚ) else 0)) =
      .num ((l.countP (fun x => decide (p x)) : ℚ) / l.length) := by
  have h1 : (l.map (fun x => if p x then (1 : ℚ) else 0)).isEmpty = false := by
    cases l with
    | nil => exact absurd rfl hne
    | cons a u => rfl
  rw [npMean, h1]
  simp only [Bool.false_eq_true, if_false, sum_indicator, List.length_map]

/-- C7: the target probability is the strict directional count over the
total count, times 100 — `maggiore` counts strictly greater elements,
`minore` strictly smaller ones, and elements equal to the target count
toward neither (the three counts partition the list); concretely for
`[1,2,3,4,5]`, target `3`, direction greater, the probability is `40`. -/
theorem target_probability_strict :
    target_probability [1, 2, 3, 4, 5] 3 .maggiore = .num 40 ∧
    ∀ (result : List ℚ) (t : ℚ), result ≠ [] →
      target_probability result t .maggiore =
        .num (100 * (result.countP (fun x => decide (t < x))) / result.length) ∧
      target_probability result t .minore =
        .num (100 * (result.countP (fun x => decide (x < t))) / result.length) ∧
      result.countP (fun x => decide (t < x)) +
        result.countP (fun x => decide (x < t)) +
        result.countP (fun x => decide (x = t)) = result.length := by
  refine ⟨by with_unfolding_all rfl,
    fun result t hne => ⟨?_, ?_, countP_partition result t⟩⟩
  · rw [target_probability, npMean_indicator (fun x => t < x) result hne]
    show NpFloat.num _ = NpFloat.num _
    congr 1
    ring
  · rw [target_probability, npMean_indicator (fun x => x < t) result hne]
    show NpFloat.num _ = NpFloat.num _
    congr 1
    ring

/-- Witness for C7 at `result = [1,2,3]`, `target = 2` (one element on
each side of the target, one equal). -/
theorem target_probability_strict_w :
    ([1, 2, 3] : List ℚ).countP (fun x => decide ((2 : ℚ) < x)) +
      ([1, 2, 3] : List ℚ).countP (fun x => decide (x < (2 : ℚ))) +
      ([1, 2, 3] : List ℚ).countP (fun x => decide (x = (2 : ℚ))) =
      ([1, 2, 3] : List ℚ).length :=
  (target_probability_strict.2 [1, 2, 3] 2 (by simp)).2.2

/-- C2 counterexample: for samples `{A: [0,2], B: [3,0]}` and formula
`A + B`, the raw impacts are `{A: -8, B: -3}`, so the total `-11` is
not positive — yet `calculate_variable_impacts` returns those raw
values unchanged, not the all-zero report the claim requires (the `A`
entry is `-8`, which is not `0`). -/
theorem impacts_not_zeroed :
    calculate_variable_impacts [("A", [0, 2]), ("B", [3, 0])] "A + B"
        ["A", "B"] =
      .ok ([("A", .num (-8)), ("B", .num (-3))],
        [("A", [0, 2]), ("B", [3, 0])]) ∧
    NpFloat.num (-8) ≠ NpFloat.num 0 :=
  ⟨by with_unfolding_all rfl, by intro h; injection h with h2; norm_num at h2⟩

/-- C2 amended: normalization happens only when the total raw impact is
strictly positive, in which case each impact becomes
`v / total * 100` and the reported impacts sum to exactly `100`; when
the total is not positive, the raw impacts are returned unnormalized
(they are not replaced by `0`). -/
theorem normalize_impacts_spec (imps : List (String × NpFloat)) (qs : List ℚ)
    (hq : imps.map Prod.snd = qs.map NpFloat.num) :
    (0 < qs.sum → npSum ((normalizeImpacts imps).map Prod.snd) = .num 100) ∧
    (¬ 0 < qs.sum → normalizeImpacts imps = imps) := by
  have htot : npSum (imps.map Prod.snd) = .num qs.sum := by rw [hq, npSum_num]
  constructor
  · intro hpos
    have hne : qs.sum ≠ 0 := ne_of_gt hpos
    simp only [normalizeImpacts, htot]
    rw [if_pos (by simp [npGtZero, hpos])]
    have hmaps :
        (imps.map (fun p =>
            (p.1, npMul (npDiv p.2 (.num qs.sum)) (.num 100)))).map Prod.snd =
          qs.map (fun q => npMul (npDiv (.num q) (.num qs.sum)) (.num 100)) := by
      rw [List.map_map]
      rw [show (Prod.snd ∘ fun p : String × NpFloat =>
          (p.1, npMul (npDiv p.2 (.num qs.sum)) (.num 100))) =
          (fun v => npMul (npDiv v (.num qs.sum)) (.num 100)) ∘ Prod.snd
        from rfl]
      rw [← List.map_map, hq, List.map_map]
      rfl
    rw [hmaps]
    have hfun : (fun q : ℚ => npMul (npDiv (.num q) (.num qs.sum)) (.num 100)) =
        fun q => NpFloat.num (q / qs.sum * 100) := by
      funext q
      simp only [npDiv, if_neg hne]
      rfl
    rw [hfun]
    rw [show (fun q : ℚ => NpFloat.num (q / qs.sum * 100)) =
        NpFloat.num ∘ (fun q => q / qs.sum * 100) from rfl]
    rw [← List.map_map, npSum_num, sum_map_div_mul, div_self hne]
    norm_num
  · intro hneg
    simp only [normalizeImpacts, htot]
    rw [if_neg (by simp [npGtZero, hneg])]

/-- Witness for the amended C2 theorem: raw impacts `{A: 1, B: 3}` have
positive total `4`, and the normalized report sums to `100`. -/
theorem normalize_impacts_spec_w :
    npSum ((normalizeImpacts [("A", .num 1), ("B", .num 3)]).map Prod.snd) =
      .num 100 :=
  (normalize_impacts_spec [("A", .num 1), ("B", .num 3)] [1, 3]
    (by with_unfolding_all rfl)).1 (by norm_num)

/-- C4 counterexample: with the single variable `X` held at the constant
samples `[2, 2]` (zero base variance) and formula `X`, the analysis does
not fail with any error — it performs the `0/0` division anyway and
returns the impact `nan` silently. -/
theorem degenerate_variance_not_error :
    calculate_variable_impacts [("X", [2, 2])] "X" ["X"] =
      .ok ([("X", .nan)], [("X", [2, 2])]) := by
  with_unfolding_all rfl

/-- `np.mean` of a constant pair is the constant. -/
theorem npMean_pair (a : ℚ) : npMean [a, a] = .num a := by
  simp [npMean]

/-- `np.var` of a constant pair is zero. -/
theorem npVar_pair (a : ℚ) : npVar [a, a] = .num 0 := by
  simp [npVar]

/-- C4 amended: there is no `DegenerateBaseVariance` guard.  For every
constant value `c`, running the analysis on `{X: [c, c]}` with formula
`X` performs `1 - var/var = 1 - 0/0`, which is `nan`, and returns
`{X: nan}` without raising. -/
theorem degenerate_variance_nan (c : ℚ) :
    calculate_variable_impacts [("X", [c, c])] "X" ["X"] =
      .ok ([("X", .nan)], [("X", [c, c])]) := by
  have hparse : pyParse "X" = .ok (.name "X") := by with_unfolding_all rfl
  have heval : ∀ xs : List ℚ, evaluate "X" [("X", xs)] = .ok (.arr xs) := by
    intro xs
    rw [evaluate, hparse]
    simp [pyEval, List.lookup]
  have hrep : List.replicate ([c, c] : List ℚ).length c = [c, c] := by
    simp [List.replicate]
  simp only [calculate_variable_impacts, heval, rawImpactEntry.npVarVal,
    npVar_pair, impactsLoop, List.lookup, beq_self_eq_true, npMean_pair,
    hrep, dictSet, List.map_cons, List.map_nil, if_pos]
  simp [normalizeImpacts, npSum, npSub, npNeg, npAdd, npDiv, npGtZero]

/-- C9: applying weight `1.0` to every variable rebuilds the samples
dict unchanged (keys of a dict are unique), so the weighted result of
`eval(formula, ..., weighted_samples)` is elementwise identical to the
base result from the same samples, for every formula. -/
theorem weight_one_reproduces_base (samples : List (String × List ℚ))
    (formula : String) (hnd : (samples.map Prod.fst).Nodup) :
    apply_weights samples (fun _ => 1) (samples.map Prod.fst) = some samples ∧
    ∀ ws, apply_weights samples (fun _ => 1) (samples.map Prod.fst) = some ws →
      evaluate formula ws = evaluate formula samples := by
  have h := apply_weights_one samples samples (lookup_self hnd)
  refine ⟨h, fun ws hws => ?_⟩
  rw [h] at hws
  injection hws with h2
  rw [h2]

/-- Witness for C9 at the samples `{A: [1,2], B: [3,4]}` with formula
`A + B`. -/
theorem weight_one_reproduces_base_w :
    apply_weights [("A", [(1 : ℚ), 2]), ("B", [3, 4])] (fun _ => 1)
        ([("A", [(1 : ℚ), 2]), ("B", [3, 4])].map Prod.fst) =
      some [("A", [(1 : ℚ), 2]), ("B", [3, 4])] :=
  (weight_one_reproduces_base [("A", [1, 2]), ("B", [3, 4])] "A + B"
    (by simp)).1

/-- C10: `calculate_variable_impacts` never mutates the caller's samples
dict — the dict state after the call is exactly the input — and the raw
impacts are the independent per-variable impacts computed from the
original samples (each mean-substitution starts from `samples`, not from
an earlier iteration's substitution), normalized at the end. -/
theorem calculate_variable_impacts_frame (samples : List (String × List ℚ))
    (formula : String) (vars : List String)
    (impacts : List (String × NpFloat)) (stOut : List (String × List ℚ))
    (h : calculate_variable_impacts samples formula vars = .ok (impacts, stOut)) :
    stOut = samples ∧
    ∃ base bv raw,
      evaluate formula samples = .ok base ∧
      rawImpactEntry.npVarVal base = .ok bv ∧
      mapMEx (rawImpactEntry formula bv samples) vars = .ok raw ∧
      impacts = normalizeImpacts raw := by
  rw [calculate_variable_impacts] at h
  split at h
  next e hev => simp at h
  next base hev =>
    split at h
    next e hbv => simp at h
    next bv hbv =>
      rw [impactsLoop_eq] at h
      split at h
      next e hloop => simp at h
      next imps st hloop =>
        cases hm : mapMEx (rawImpactEntry formula bv samples) vars with
        | error e => rw [hm] at hloop; simp [Except.map] at hloop
        | ok raw =>
          rw [hm] at hloop
          simp only [Except.map, Except.ok.injEq, Prod.mk.injEq] at hloop
          simp only [Except.ok.injEq, Prod.mk.injEq] at h
          refine ⟨?_, base, bv, raw, hev, hbv, hm, ?_⟩
          · rw [← h.2, ← hloop.2]
          · rw [← h.1, hloop.1]

/-- Witness for C10 at `{A: [1,2]}` with formula `A`: the call returns
impact `100` for `A` and leaves the samples dict untouched. -/
theorem calculate_variable_impacts_frame_w :
    [("A", [(1 : ℚ), 2])] = [("A", [(1 : ℚ), 2])] ∧
    ∃ base bv raw,
      evaluate "A" [("A", [(1 : ℚ), 2])] = .ok base ∧
      rawImpactEntry.npVarVal base = .ok bv ∧
      mapMEx (rawImpactEntry "A" bv [("A", [(1 : ℚ), 2])]) ["A"] = .ok raw ∧
      [("A", NpFloat.num 100)] = normalizeImpacts raw :=
  calculate_variable_impacts_frame [("A", [1, 2])] "A" ["A"]
    [("A", .num 100)] [("A", [1, 2])] (by with_unfolding_all rfl)
